import Mathlib

/-!
A shallow embedding of the incident dispatch and escalation engine
(`incident/models.py`, `core/validator.py`, `core/escalator.py`,
`incident/filters.py`, `core/dispatcher.py`, `rules/default_rules.py`),
together with theorems settling the specification claims about it.

Conventions of the embedding:
* timestamps (`datetime`) are integers counting seconds; `timedelta(minutes=m)`
  is `m * 60`; `datetime.now()` is passed explicitly as a `now` argument to
  every operation that reads the clock;
* Python `dict`s (`incidents: id -> Incident`, `operators: name -> Operator`)
  are association lists in insertion order, with dict lookup = first match and
  dict assignment = replace-in-place / append (`dict_get`, `dict_set`,
  `op_upsert`);
* a Python function that can raise is modelled with an explicit result
  constructor for the exception path;
* `re`-based text matching (`IncidentFilter.by_text`) is abstracted as a
  predicate parameter, since the claims never exercise a concrete pattern.
-/

namespace IncidentSim

/-- The character class stripped by Python `str.strip()` (ASCII whitespace:
space, tab, newline, carriage return, vertical tab, form feed). -/
def is_py_space (c : Char) : Bool :=
  c == ' ' || c == '\t' || c == '\n' || c == '\r' || c == '\x0b' || c == '\x0c'

/-- Python `str.strip()`: drop leading and trailing whitespace. -/
def py_strip (s : String) : String :=
  ⟨((s.data.dropWhile is_py_space).reverse.dropWhile is_py_space).reverse⟩

/-! ## Domain model (`incident/models.py`) -/

/-- `Incident` dataclass (frozen). `type`, `priority`, `status` are the string
enums of `models.py`; `created_at` is a timestamp in seconds. -/
structure Incident where
  id : Nat
  type : String
  priority : String
  description : String
  created_at : Int
  assigned_to : Option String
  status : String
deriving DecidableEq, Repr

/-- `Incident.with_status`: new instance with only `status` changed. -/
def Incident.with_status (i : Incident) (new_status : String) : Incident :=
  { id := i.id, type := i.type, priority := i.priority,
    description := i.description, created_at := i.created_at,
    assigned_to := i.assigned_to, status := new_status }

/-- `Incident.with_assignment`: new instance with `assigned_to = operator`
and `status = "in_progress"`. -/
def Incident.with_assignment (i : Incident) (operator : String) : Incident :=
  { id := i.id, type := i.type, priority := i.priority,
    description := i.description, created_at := i.created_at,
    assigned_to := some operator, status := "in_progress" }

/-- `Operator` dataclass (frozen). -/
structure Operator where
  name : String
  roles : List String
  available : Bool := true
deriving DecidableEq, Repr

/-- `Operator.can_handle`: `incident_type in self.roles`. -/
def Operator.can_handle (o : Operator) (incident_type : String) : Bool :=
  o.roles.contains incident_type

/-! ## Validator (`core/validator.py`) -/

namespace IncidentValidator

def VALID_TYPES : List String := ["infrastructure", "security", "application"]

def VALID_PRIORITIES : List String := ["high", "medium", "low"]

def VALID_STATUSES : List String := ["pending", "in_progress", "resolved", "escalated"]

/-- `IncidentValidator.validate_type`. -/
def validate_type (incident_type : String) : Bool :=
  VALID_TYPES.contains incident_type

/-- `IncidentValidator.validate_priority`. -/
def validate_priority (priority : String) : Bool :=
  VALID_PRIORITIES.contains priority

/-- `IncidentValidator.validate_description`:
`5 <= len(description.strip()) <= 500`. -/
def validate_description (description : String) : Bool :=
  5 ≤ (py_strip description).length && (py_strip description).length ≤ 500

/-- `IncidentValidator.validate_operator_name`:
`re.match(r'^[a-zA-Z0-9\s]{2,50}$', name.strip())` — after stripping, 2 to 50
characters, all ASCII alphanumeric or whitespace. -/
def validate_operator_name (name : String) : Bool :=
  2 ≤ (py_strip name).length && (py_strip name).length ≤ 50 &&
    (py_strip name).data.all (fun c => c.isAlphanum || is_py_space c)

/-- Message recorded for an invalid type.  The Python message interpolates a
`join` over the set `VALID_TYPES`, whose iteration order is unspecified; the
embedding keeps the fixed prefix only. -/
def TYPE_ERROR_MSG : String := "Tipo inválido"

/-- Message recorded for an invalid priority (fixed prefix, see above). -/
def PRIORITY_ERROR_MSG : String := "Prioridad inválida"

/-- Message recorded for an invalid description. -/
def DESCRIPTION_ERROR_MSG : String := "Descripción debe tener entre 5 y 500 caracteres"

/-- `IncidentValidator.validate_all_incident_data`: list of all violated
constraints, in check order (type, priority, description). -/
def validate_all_incident_data (incident_type priority description : String) :
    List String :=
  (if validate_type incident_type then [] else [TYPE_ERROR_MSG]) ++
  (if validate_priority priority then [] else [PRIORITY_ERROR_MSG]) ++
  (if validate_description description then [] else [DESCRIPTION_ERROR_MSG])

end IncidentValidator

/-! ## Escalation engine (`core/escalator.py`) -/

/-- `TimeBasedEscalation.should_escalate` with threshold `minutes_threshold`
(constructor argument): status pending/in_progress and strictly more than the
threshold elapsed. -/
def TimeBasedEscalation.should_escalate (minutes_threshold : Int) (now : Int)
    (incident : Incident) : Bool :=
  (incident.status == "pending" || incident.status == "in_progress") &&
    (now - incident.created_at > minutes_threshold * 60)

/-- `PriorityBasedEscalation.should_escalate` with flag `auto_escalate_high`:
high priority, status pending/in_progress, strictly more than 15 minutes
elapsed. -/
def PriorityBasedEscalation.should_escalate (auto_escalate_high : Bool) (now : Int)
    (incident : Incident) : Bool :=
  auto_escalate_high && incident.priority == "high" &&
    (incident.status == "pending" || incident.status == "in_progress") &&
    (now - incident.created_at > 15 * 60)

/-- `CompositeEscalation.should_escalate`: `any` over the sub-strategies. -/
def CompositeEscalation.should_escalate (strategies : List (Incident → Bool))
    (incident : Incident) : Bool :=
  strategies.any (fun s => s incident)

/-- The strategy the dispatcher is constructed with:
`CompositeEscalation(TimeBasedEscalation(30), PriorityBasedEscalation(True))`. -/
def dispatcher_strategy (now : Int) (incident : Incident) : Bool :=
  CompositeEscalation.should_escalate
    [TimeBasedEscalation.should_escalate 30 now,
     PriorityBasedEscalation.should_escalate true now] incident

/-- `IncidentEscalator.find_escalatable_incidents`: those incidents for which
the strategy returns true (the Python generator, fully materialised). -/
def IncidentEscalator.find_escalatable_incidents (strategy : Incident → Bool)
    (incidents : List Incident) : List Incident :=
  incidents.filter strategy

/-- `IncidentEscalator.escalate_incident`: `incident.with_status("escalated")`. -/
def IncidentEscalator.escalate_incident (incident : Incident) : Incident :=
  incident.with_status "escalated"

/-! ## Filters (`incident/filters.py`) -/

namespace IncidentFilter

/-- `IncidentFilter.by_text`.  The `re` engine (with its literal-substring
fallback on `re.error`) is abstracted as the predicate `text_match pattern
description`. -/
def by_text (text_match : String → String → Bool) (incidents : List Incident)
    (pattern : String) : List Incident :=
  incidents.filter (fun i => text_match pattern i.description)

/-- `IncidentFilter.by_type`. -/
def by_type (incidents : List Incident) (incident_type : String) : List Incident :=
  incidents.filter (fun i => i.type == incident_type)

/-- `IncidentFilter.by_operator`. -/
def by_operator (incidents : List Incident) (operator : String) : List Incident :=
  incidents.filter (fun i => i.assigned_to == some operator)

/-- `IncidentFilter.by_status`. -/
def by_status (incidents : List Incident) (status : String) : List Incident :=
  incidents.filter (fun i => i.status == status)

/-- `IncidentFilter.by_priority`. -/
def by_priority (incidents : List Incident) (priority : String) : List Incident :=
  incidents.filter (fun i => i.priority == priority)

/-- `IncidentFilter.by_date_range`: keep incidents with
`start_date <= created_at <= end_date` (each bound optional). -/
def by_date_range (incidents : List Incident) (start_date end_date : Option Int) :
    List Incident :=
  incidents.filter (fun i =>
    (match start_date with
     | some s => decide (s ≤ i.created_at)
     | none => true) &&
    (match end_date with
     | some e => decide (i.created_at ≤ e)
     | none => true))

end IncidentFilter

/-! ## Dispatcher state (`core/dispatcher.py`) -/

/-- One record of `self.history`.  The `'created'` and `'escalated'` entries
have no `'operator'` key in Python; the embedding uses `none` there. -/
structure HistoryEntry where
  timestamp : Int
  action : String
  incident_id : Nat
  operator : Option String
  details : String
deriving DecidableEq, Repr

/-- The mutable state owned by `IncidentDispatcher`: incident table (a dict in
insertion order), pending queue (deque), operator registry (dict), audit
history, id counter.  The `type_to_roles` field is omitted: it is written in
`_initialize_system` and never read by any operation. -/
structure DispatcherState where
  incidents : List Incident
  pending_queue : List Incident
  operators : List Operator
  history : List HistoryEntry
  next_id : Nat
deriving DecidableEq, Repr

/-- Dict lookup `self.incidents[incident_id]` (first entry with that id). -/
def dict_get (tbl : List Incident) (id : Nat) : Option Incident :=
  tbl.find? (fun i => i.id == id)

/-- Dict assignment `self.incidents[incident_id] = v` for a key already
present: replace in place. -/
def dict_set (tbl : List Incident) (id : Nat) (v : Incident) : List Incident :=
  tbl.map (fun i => if i.id == id then v else i)

/-- Dict lookup `self.operators[operator_name]`. -/
def op_get (ops : List Operator) (name : String) : Option Operator :=
  ops.find? (fun o => o.name == name)

/-- Dict assignment `self.operators[operator.name] = operator`: replace the
entry with that key if present, else append. -/
def op_upsert (ops : List Operator) (o : Operator) : List Operator :=
  if ops.any (fun p => p.name == o.name) then
    ops.map (fun p => if p.name == o.name then o else p)
  else ops ++ [o]

/-- `get_default_operators()` from `rules/default_rules.py`. -/
def default_operators : List Operator :=
  [{ name := "carlos", roles := ["admin", "system_admin"], available := true },
   { name := "ana", roles := ["security_analyst", "incident_responder"], available := true },
   { name := "miguel", roles := ["developer", "app_support"], available := true },
   { name := "sofia", roles := ["network_engineer", "system_admin"], available := true },
   { name := "admin", roles := ["admin", "security_analyst", "developer", "network_engineer"],
     available := true }]

/-- The state of a freshly constructed dispatcher with no persisted data:
`load_incidents` returns `[]`, so the table, queue and history are empty,
`next_id = 1`, and the default operators are installed. -/
def initState : DispatcherState :=
  { incidents := [], pending_queue := [], operators := default_operators,
    history := [], next_id := 1 }

namespace IncidentDispatcher

/-- `IncidentDispatcher._add_to_queue`: high priority to the front
(`appendleft`), everything else to the back (`append`). -/
def add_to_queue (q : List Incident) (incident : Incident) : List Incident :=
  if incident.priority == "high" then incident :: q else q ++ [incident]

/-- `IncidentDispatcher.get_pending_incidents`: snapshot of the queue. -/
def get_pending_incidents (st : DispatcherState) : List Incident :=
  st.pending_queue

/-- `IncidentDispatcher.get_incidents_by_status` (generator, materialised). -/
def get_incidents_by_status (st : DispatcherState) (status : String) : List Incident :=
  st.incidents.filter (fun i => i.status == status)

/-- Outcome of `register_incident` as seen by the caller:
* `raised`: the `@validate_input` decorator raised `ValueError` (propagates,
  since `register_incident`'s own `try` has not been entered);
* `failed`: validation errors were found, `ValueError` was raised inside the
  `try` and caught by `except Exception`, the call returns `None`; the
  violations the internal error carried are recorded;
* `ok`: the new incident id was returned. -/
inductive RegisterResult where
  | raised (violations : List String)
  | failed (violations : List String)
  | ok (id : Nat)
deriving DecidableEq, Repr

/-- `IncidentDispatcher.register_incident`.  The `@validate_input` decorator
checks `isinstance(x, str) and x.strip()` on the first argument (the type) and
raises before the body runs if it is empty after stripping; then
`validate_all_incident_data` decides the `ValueError`-then-`None` path; on
success the incident is stored, queued, the counter incremented and a
`created` history entry appended. -/
def register_incident (st : DispatcherState) (now : Int)
    (incident_type priority description : String) : RegisterResult × DispatcherState :=
  if py_strip incident_type == "" then
    (.raised ["Tipo de incidente inválido"], st)
  else
    let errors := IncidentValidator.validate_all_incident_data incident_type priority description
    if errors.isEmpty then
      let incident : Incident :=
        { id := st.next_id, type := incident_type, priority := priority,
          description := py_strip description, created_at := now,
          assigned_to := none, status := "pending" }
      let entry : HistoryEntry :=
        { timestamp := now, action := "created", incident_id := incident.id,
          operator := none, details := "Creado: " ++ incident_type ++ " - " ++ priority }
      (.ok incident.id,
       { st with
          incidents := st.incidents ++ [incident],
          pending_queue := add_to_queue st.pending_queue incident,
          next_id := st.next_id + 1,
          history := st.history ++ [entry] })
    else
      (.failed errors, st)

/-- `IncidentDispatcher.assign_incident`: the guards in source order (incident
exists, status pending, operator exists, operator available, operator can
handle the type), then `with_assignment`, queue reconstruction excluding the
id, and an `assigned` history entry. -/
def assign_incident (st : DispatcherState) (now : Int) (incident_id : Nat)
    (operator_name : String) : Bool × DispatcherState :=
  match dict_get st.incidents incident_id with
  | none => (false, st)
  | some incident =>
    if incident.status != "pending" then (false, st)
    else
      match op_get st.operators operator_name with
      | none => (false, st)
      | some operator =>
        if !operator.available then (false, st)
        else if !operator.can_handle incident.type then (false, st)
        else
          let entry : HistoryEntry :=
            { timestamp := now, action := "assigned", incident_id := incident_id,
              operator := some operator_name, details := "Asignado a " ++ operator_name }
          (true,
           { st with
              incidents := dict_set st.incidents incident_id
                (incident.with_assignment operator_name),
              pending_queue := st.pending_queue.filter (fun i => i.id != incident_id),
              history := st.history ++ [entry] })

/-- `IncidentDispatcher.resolve_incident`: exists and status in
`["pending", "in_progress"]`, then `with_status("resolved")`, queue
reconstruction excluding the id, and a `resolved` history entry whose
operator field is the current assignee. -/
def resolve_incident (st : DispatcherState) (now : Int) (incident_id : Nat) :
    Bool × DispatcherState :=
  match dict_get st.incidents incident_id with
  | none => (false, st)
  | some incident =>
    if incident.status == "pending" || incident.status == "in_progress" then
      let entry : HistoryEntry :=
        { timestamp := now, action := "resolved", incident_id := incident_id,
          operator := incident.assigned_to,
          details := "Resuelto por " ++ incident.assigned_to.getD "sistema" }
      (true,
       { st with
          incidents := dict_set st.incidents incident_id (incident.with_status "resolved"),
          pending_queue := st.pending_queue.filter (fun i => i.id != incident_id),
          history := st.history ++ [entry] })
    else (false, st)

/-- The body of the `for` loop in `auto_escalate_incidents`, for one hit:
store the escalated incident, rebuild the queue without it, append an
`escalated` history entry. -/
def escalate_step (now : Int) (st : DispatcherState) (incident : Incident) :
    DispatcherState :=
  { st with
     incidents := dict_set st.incidents incident.id
       (IncidentEscalator.escalate_incident incident),
     pending_queue := st.pending_queue.filter (fun i => i.id != incident.id),
     history := st.history ++
       [{ timestamp := now, action := "escalated", incident_id := incident.id,
          operator := none, details := "Escalado automáticamente por tiempo" }] }

/-- `IncidentDispatcher.auto_escalate_incidents`: materialise the pending and
in-progress incidents, run the strategy over that frozen list, apply
`escalate_step` to each hit in order, return the count of hits. -/
def auto_escalate_incidents (st : DispatcherState) (now : Int) :
    Nat × DispatcherState :=
  let pending_incidents :=
    get_incidents_by_status st "pending" ++ get_incidents_by_status st "in_progress"
  let hits := IncidentEscalator.find_escalatable_incidents
    (dispatcher_strategy now) pending_incidents
  (hits.length, hits.foldl (escalate_step now) st)

/-- `IncidentDispatcher.search_incidents`.  Each non-empty criterion chains a
filter (lazily in Python, so nothing is consumed before the date step); then,
because `timedelta` is **not imported** in `dispatcher.py`, the line
`start_date = datetime.now() - timedelta(days=days_back)` raises `NameError`
whenever `days_back > 0`, the surrounding `except Exception` catches it and
the call returns `[]`. -/
def search_incidents (text_match : String → String → Bool) (st : DispatcherState)
    (text incident_type operator status : String) (days_back : Int) :
    List Incident :=
  let l0 := st.incidents
  let l1 := if text != "" then IncidentFilter.by_text text_match l0 text else l0
  let l2 := if incident_type != "" then IncidentFilter.by_type l1 incident_type else l1
  let l3 := if operator != "" then IncidentFilter.by_operator l2 operator else l2
  let l4 := if status != "" then IncidentFilter.by_status l3 status else l3
  if days_back > 0 then [] else l4

/-- `IncidentDispatcher.get_history`: the Python slice `self.history[-limit:]`.
For `limit > 0` this is the suffix of the last `min(limit, len)` entries; for
`limit = 0` the slice index `-0` is `0`, so the **whole** history is
returned. -/
def get_history (st : DispatcherState) (limit : Nat) : List HistoryEntry :=
  if limit == 0 then st.history
  else st.history.drop (st.history.length - limit)

/-- `IncidentDispatcher.add_operator`: name validation only, then dict upsert
keyed by the stripped name. -/
def add_operator (st : DispatcherState) (name : String) (roles : List String) :
    Bool × DispatcherState :=
  if IncidentValidator.validate_operator_name name then
    let operator : Operator := { name := py_strip name, roles := roles, available := true }
    (true, { st with operators := op_upsert st.operators operator })
  else (false, st)

end IncidentDispatcher

/-! ## Operation sequences -/

/-- One invocation of a state-changing public dispatcher operation. -/
inductive DispatchOp where
  | register (now : Int) (incident_type priority description : String)
  | assign (now : Int) (incident_id : Nat) (operator_name : String)
  | resolve (now : Int) (incident_id : Nat)
  | autoEscalate (now : Int)
  | addOperator (name : String) (roles : List String)
deriving DecidableEq, Repr

/-- The state after one operation (result value discarded). -/
def applyOp (st : DispatcherState) (op : DispatchOp) : DispatcherState :=
  match op with
  | .register now t p d => (IncidentDispatcher.register_incident st now t p d).2
  | .assign now id opn => (IncidentDispatcher.assign_incident st now id opn).2
  | .resolve now id => (IncidentDispatcher.resolve_incident st now id).2
  | .autoEscalate now => (IncidentDispatcher.auto_escalate_incidents st now).2
  | .addOperator name roles => (IncidentDispatcher.add_operator st name roles).2

/-- The state after a sequence of operations. -/
def runOps (st : DispatcherState) (ops : List DispatchOp) : DispatcherState :=
  ops.foldl applyOp st

/-! ## Session scope (`incident_session` and `_save_data`) -/

/-- Outcome of a Python call: normal return or raised exception. -/
inductive PyResult (α : Type) where
  | ok (val : α)
  | exn (msg : String)
deriving DecidableEq, Repr

/-- `IncidentDispatcher._save_data`: calls `storage.save_incidents` inside
`try`; `except Exception` logs and **swallows** any error.  Returns the
swallowed storage error, if any — it is never re-raised. -/
def save_data_swallowed (save_outcome : PyResult Unit) : Option String :=
  match save_outcome with
  | .ok _ => none
  | .exn m => some m

/-- Observable behaviour of one `with dispatcher.incident_session():` scope. -/
structure SessionRun (α : Type) where
  outcome : PyResult α
  flushed : Bool
  swallowed_save_error : Option String
deriving DecidableEq, Repr

/-- `IncidentDispatcher.incident_session`: the body runs; an exception inside
it is logged and re-raised; the `finally` block always calls `_save_data`
(which swallows storage errors), so the scope's outcome is exactly the body's
outcome and the flush always happens. -/
def incident_session {α : Type} (body : PyResult α) (save_outcome : PyResult Unit) :
    SessionRun α :=
  { outcome := body, flushed := true,
    swallowed_save_error := save_data_swallowed save_outcome }

/-- `StorageManager.save_incidents`: any failure inside its `try` is logged
and then **re-raised** (`raise`), so the storage layer itself propagates
failures to its caller (`_save_data`). -/
def StorageManager.save_incidents (write_outcome : PyResult Unit) : PyResult Unit :=
  write_outcome

end IncidentSim

namespace IncidentSim

/-! ## Lemmas about the dict embedding -/

lemma mem_of_dict_get {tbl : List Incident} {id : Nat} {i : Incident}
    (h : dict_get tbl id = some i) : i ∈ tbl :=
  List.mem_of_find?_eq_some h

lemma id_of_dict_get {tbl : List Incident} {id : Nat} {i : Incident}
    (h : dict_get tbl id = some i) : i.id = id := by
  simpa using List.find?_some h

lemma dict_get_cons (a : Incident) (l : List Incident) (id : Nat) :
    dict_get (a :: l) id = if (a.id == id) = true then some a else dict_get l id := by
  by_cases ha : (a.id == id) = true
  · rw [if_pos ha]; exact List.find?_cons_of_pos _ ha
  · rw [if_neg ha]; exact List.find?_cons_of_neg _ (by simpa using ha)

lemma dict_set_cons (a : Incident) (l : List Incident) (id : Nat) (v : Incident) :
    dict_set (a :: l) id v = (if (a.id == id) = true then v else a) :: dict_set l id v := rfl

lemma dict_get_dict_set_self {tbl : List Incident} {id : Nat} {v : Incident}
    (hv : v.id = id) {i : Incident} (h : dict_get tbl id = some i) :
    dict_get (dict_set tbl id v) id = some v := by
  induction tbl with
  | nil => simp [dict_get] at h
  | cons a l ih =>
    by_cases ha : (a.id == id) = true
    · rw [dict_set_cons, if_pos ha, dict_get_cons, if_pos (by simpa using hv)]
    · rw [dict_get_cons, if_neg ha] at h
      rw [dict_set_cons, if_neg ha, dict_get_cons, if_neg ha]
      exact ih h

lemma dict_get_dict_set_ne {tbl : List Incident} {id j : Nat} {v : Incident}
    (hv : v.id = id) (hne : j ≠ id) :
    dict_get (dict_set tbl id v) j = dict_get tbl j := by
  induction tbl with
  | nil => rfl
  | cons a l ih =>
    by_cases ha : (a.id == id) = true
    · have h1 : ¬((v.id == j) = true) := by simp [hv]; exact fun hc => hne hc.symm
      have h2 : ¬((a.id == j) = true) := by
        have : a.id = id := by simpa using ha
        simp [this]; exact fun hc => hne hc.symm
      rw [dict_set_cons, if_pos ha, dict_get_cons, if_neg h1,
          dict_get_cons a l j, if_neg h2]
      exact ih
    · rw [dict_set_cons, if_neg ha, dict_get_cons, dict_get_cons a l j]
      by_cases haj : (a.id == j) = true
      · rw [if_pos haj, if_pos haj]
      · rw [if_neg haj, if_neg haj]
        exact ih

lemma mem_dict_set {tbl : List Incident} {id : Nat} {v x : Incident}
    (h : x ∈ dict_set tbl id v) : x ∈ tbl ∨ x = v := by
  unfold dict_set at h
  rcases List.mem_map.1 h with ⟨y, hy, hxy⟩
  by_cases hyid : (y.id == id) = true
  · right; simp [hyid] at hxy; exact hxy.symm
  · left; simp [hyid] at hxy; exact hxy ▸ hy

lemma dict_get_of_mem_nodup {tbl : List Incident} {i : Incident}
    (hmem : i ∈ tbl) (hnodup : (tbl.map (fun x => x.id)).Nodup) :
    dict_get tbl i.id = some i := by
  induction tbl with
  | nil => cases hmem
  | cons a l ih =>
    rcases List.mem_cons.1 hmem with rfl | hmem'
    · simp [dict_get]
    · have ha : (a.id == i.id) = false := by
        have : a.id ∉ l.map (fun x => x.id) := (List.nodup_cons.1 hnodup).1
        have hii : i.id ∈ l.map (fun x => x.id) := List.mem_map.2 ⟨i, hmem', rfl⟩
        simp only [beq_eq_false_iff_ne, ne_eq]
        intro hcontra
        exact this (hcontra ▸ hii)
      have := ih hmem' (List.nodup_cons.1 hnodup).2
      simpa [dict_get, List.find?_cons_of_neg, ha] using this

end IncidentSim

namespace IncidentSim

/-! ## C10: `get_history` -/

/-- **C10**: `get_history(limit)` returns, for every positive `limit`, the last
`min(limit, length)` history entries in oldest-to-newest order (a suffix of the
history); called with `limit = 0` it returns the entire history rather than an
empty list, because the slice `history[-0:]` is the whole list. -/
theorem get_history_spec (st : DispatcherState) :
    (∀ limit : Nat, 0 < limit →
        IncidentDispatcher.get_history st limit
            = st.history.drop (st.history.length - limit) ∧
        (IncidentDispatcher.get_history st limit).length
            = min limit st.history.length ∧
        IncidentDispatcher.get_history st limit <:+ st.history) ∧
    IncidentDispatcher.get_history st 0 = st.history := by
  constructor
  · intro limit hl
    have h0 : (limit == 0) = false := by
      simp only [beq_eq_false_iff_ne, ne_eq]
      omega
    unfold IncidentDispatcher.get_history
    rw [h0]
    refine ⟨rfl, ?_, ?_⟩
    · simp only [Bool.false_eq_true, if_false, List.length_drop]
      omega
    · simp only [Bool.false_eq_true, if_false]
      exact List.drop_suffix _ _
  · rfl

/-- Concrete scenario for the C10 witness: a dispatcher whose history has
three entries. -/
def histThree : List HistoryEntry :=
  [{ timestamp := 0, action := "created", incident_id := 1, operator := none, details := "a" },
   { timestamp := 1, action := "assigned", incident_id := 1, operator := some "Bob", details := "b" },
   { timestamp := 2, action := "resolved", incident_id := 1, operator := some "Bob", details := "c" }]

/-- State holding `histThree` as its history. -/
def stHist : DispatcherState :=
  { incidents := [], pending_queue := [], operators := [], history := histThree,
    next_id := 1 }

/-- Witness for C10 at `limit = 2` and `limit = 0`. -/
theorem get_history_spec_witness :
    (0 < 2 ∧
      IncidentDispatcher.get_history stHist 2
          = stHist.history.drop (stHist.history.length - 2)) ∧
    IncidentDispatcher.get_history stHist 0 = stHist.history :=
  ⟨⟨by decide, ((get_history_spec stHist).1 2 (by decide)).1⟩,
   (get_history_spec stHist).2⟩

/-! ## C9: the session scope and the storage flush -/

/-- **C9** counterexample: with a body that returns normally and a storage
save that fails during the flush, the session outcome is still the body's
normal result — the save failure is swallowed inside `_save_data` (logged
only) and does **not** propagate to the session boundary. -/
theorem incident_session_swallows_save_error :
    (incident_session (PyResult.ok (0 : Nat)) (PyResult.exn "disk full")).outcome
        = PyResult.ok 0 ∧
    (incident_session (PyResult.ok (0 : Nat)) (PyResult.exn "disk full")).swallowed_save_error
        = some "disk full" :=
  ⟨rfl, rfl⟩

/-- **C9** amended: both normal and error exit trigger the flush before the
scope is released, and an error raised inside the scope is re-raised after
the flush (the outcome is always the body's outcome); but a storage save
failure during the flush is caught and logged inside `_save_data` and does
not propagate to the caller — even though `StorageManager.save_incidents`
itself re-raises failures to `_save_data`. -/
theorem incident_session_spec {α : Type} (body : PyResult α)
    (save_outcome : PyResult Unit) :
    (incident_session body save_outcome).flushed = true ∧
    (incident_session body save_outcome).outcome = body ∧
    (∀ m : String, save_outcome = PyResult.exn m →
        (incident_session body save_outcome).swallowed_save_error = some m ∧
        (incident_session body save_outcome).outcome = body) ∧
    StorageManager.save_incidents save_outcome = save_outcome := by
  refine ⟨rfl, rfl, ?_, rfl⟩
  intro m hm
  exact ⟨by simp [incident_session, save_data_swallowed, hm], rfl⟩

/-- Witness for C9 (amended): an erroring body together with a failing save —
the body error is re-raised, the save error swallowed. -/
theorem incident_session_spec_witness :
    ((PyResult.exn "disk full" : PyResult Unit) = PyResult.exn "disk full") ∧
    (incident_session (PyResult.exn "boom" : PyResult Nat)
        (PyResult.exn "disk full")).swallowed_save_error = some "disk full" ∧
    (incident_session (PyResult.exn "boom" : PyResult Nat)
        (PyResult.exn "disk full")).outcome = PyResult.exn "boom" :=
  ⟨rfl,
   ((incident_session_spec (PyResult.exn "boom") (PyResult.exn "disk full")).2.2.1
      "disk full" rfl).1,
   ((incident_session_spec (PyResult.exn "boom") (PyResult.exn "disk full")).2.2.1
      "disk full" rfl).2⟩

end IncidentSim

namespace IncidentSim

/-! ## C8: `search_incidents` and the missing `timedelta` import -/

/-- A reachable one-incident state: a single valid registration at time 0. -/
def stOneIncident : DispatcherState :=
  runOps initState [.register 0 "security" "high" "server breach one"]

/-- **C8** (code bug): on a dispatcher holding one incident that matches every
individual filter, `search_incidents` with the **default** trailing window
(`days_back = 30`) returns nothing at all: the line
`start_date = datetime.now() - timedelta(days=days_back)` raises `NameError`
because `timedelta` is never imported in `dispatcher.py`, and the surrounding
`except Exception` returns `[]`.  With the date filter disabled
(`days_back <= 0`) the composed search does equal the intersection of the
individually-applied filters. -/
theorem search_incidents_date_window_bug :
    (IncidentFilter.by_type stOneIncident.incidents "security").map (fun i => i.id) = [1] ∧
    (IncidentFilter.by_status stOneIncident.incidents "pending").map (fun i => i.id) = [1] ∧
    IncidentDispatcher.search_incidents (fun _ _ => false) stOneIncident
        "" "security" "" "pending" 30 = [] ∧
    (IncidentDispatcher.search_incidents (fun _ _ => false) stOneIncident
        "" "security" "" "pending" (-1)).map (fun i => i.id) = [1] := by
  decide

/-! ## C5: the priority-biased pending queue -/

/-- Two valid high-priority registrations, in order. -/
def opsTwoHigh : List DispatchOp :=
  [.register 0 "security" "high" "server breach one",
   .register 1 "security" "high" "server breach two"]

/-- **C5** counterexample: after registering two high-priority incidents, the
queue in display order is `[2, 1]` — the *later*-registered high-priority
incident comes first, because `_add_to_queue` uses `appendleft`.  The claim
that the earlier-registered of two high-priority pending incidents appears
first is false. -/
theorem pending_queue_high_tier_reversed :
    (runOps initState opsTwoHigh).pending_queue.map (fun i => i.id) = [2, 1] := by
  decide

/-- Recognise a `register` operation. -/
def isRegisterOp : DispatchOp → Bool
  | .register _ _ _ _ => true
  | _ => false

/-- Queue-shape invariant: the pending queue is the high-priority incidents in
*reverse* table (= registration) order, followed by the non-high ones in table
order. -/
def QueueBiased (st : DispatcherState) : Prop :=
  st.pending_queue =
    (st.incidents.filter (fun i => i.priority == "high")).reverse ++
      st.incidents.filter (fun i => !(i.priority == "high"))

/-- The incident built inside a successful `register_incident`. -/
def registered_incident (st : DispatcherState) (now : Int) (t p d : String) :
    Incident :=
  { id := st.next_id, type := t, priority := p, description := py_strip d,
    created_at := now, assigned_to := none, status := "pending" }

/-- The `created` history entry appended by a successful `register_incident`. -/
def created_entry (st : DispatcherState) (now : Int) (t p : String) : HistoryEntry :=
  { timestamp := now, action := "created", incident_id := st.next_id,
    operator := none, details := "Creado: " ++ t ++ " - " ++ p }

/-- Result of `register_incident` on the success path. -/
lemma register_incident_ok (st : DispatcherState) (now : Int) (t p d : String)
    (h1 : (py_strip t == "") = false)
    (h2 : (IncidentValidator.validate_all_incident_data t p d).isEmpty = true) :
    IncidentDispatcher.register_incident st now t p d =
      (.ok st.next_id,
       { st with
          incidents := st.incidents ++ [registered_incident st now t p d],
          pending_queue := IncidentDispatcher.add_to_queue st.pending_queue
            (registered_incident st now t p d),
          next_id := st.next_id + 1,
          history := st.history ++ [created_entry st now t p] }) := by
  unfold IncidentDispatcher.register_incident registered_incident created_entry
  simp only [h1, h2, Bool.false_eq_true, if_false, if_true]

/-- On every failure path `register_incident` leaves the state unchanged and
does not return an id. -/
lemma register_incident_fail (st : DispatcherState) (now : Int) (t p d : String)
    (h : (py_strip t == "") = true ∨
         (IncidentValidator.validate_all_incident_data t p d).isEmpty = false) :
    (IncidentDispatcher.register_incident st now t p d).2 = st ∧
    ∀ i : Nat, (IncidentDispatcher.register_incident st now t p d).1 ≠ .ok i := by
  unfold IncidentDispatcher.register_incident
  by_cases h1 : (py_strip t == "") = true
  · simp only [h1, if_true]
    exact ⟨trivial, by intro i hc; cases hc⟩
  · rcases h with h | h2
    · exact absurd h h1
    · simp only [Bool.not_eq_true] at h1
      simp only [h1, h2, Bool.false_eq_true, if_false]
      exact ⟨trivial, by intro i hc; cases hc⟩

/-- The state after `register_incident` is unchanged or extended as on the
success path. -/
lemma register_incident_state (st : DispatcherState) (now : Int) (t p d : String) :
    (IncidentDispatcher.register_incident st now t p d).2 = st ∨
    (IncidentDispatcher.register_incident st now t p d).2 =
      { st with
          incidents := st.incidents ++ [registered_incident st now t p d],
          pending_queue := IncidentDispatcher.add_to_queue st.pending_queue
            (registered_incident st now t p d),
          next_id := st.next_id + 1,
          history := st.history ++ [created_entry st now t p] } := by
  by_cases h1 : (py_strip t == "") = true
  · exact Or.inl (register_incident_fail st now t p d (Or.inl h1)).1
  · by_cases h2 : (IncidentValidator.validate_all_incident_data t p d).isEmpty = true
    · right
      rw [register_incident_ok st now t p d (by simpa using h1) h2]
    · exact Or.inl
        (register_incident_fail st now t p d (Or.inr (by simpa using h2))).1

/-- Adding one incident through `_add_to_queue` preserves the queue shape. -/
lemma add_to_queue_biased (incs q : List Incident) (inc : Incident)
    (h : q = (incs.filter (fun i => i.priority == "high")).reverse ++
        incs.filter (fun i => !(i.priority == "high"))) :
    IncidentDispatcher.add_to_queue q inc =
      ((incs ++ [inc]).filter (fun i => i.priority == "high")).reverse ++
        (incs ++ [inc]).filter (fun i => !(i.priority == "high")) := by
  subst h
  unfold IncidentDispatcher.add_to_queue
  by_cases hp : (inc.priority == "high") = true
  · simp [hp, List.filter_append]
  · simp only [Bool.not_eq_true] at hp
    simp [hp, List.filter_append]

/-- One register step preserves the queue shape. -/
lemma queueBiased_applyOp (st : DispatcherState) (op : DispatchOp)
    (hop : isRegisterOp op = true) (h : QueueBiased st) :
    QueueBiased (applyOp st op) := by
  cases op with
  | register now t p d =>
    show QueueBiased (IncidentDispatcher.register_incident st now t p d).2
    rcases register_incident_state st now t p d with heq | heq
    · rw [heq]; exact h
    · rw [heq]
      unfold QueueBiased at h ⊢
      exact add_to_queue_biased st.incidents st.pending_queue _ h
  | assign now id opn => simp [isRegisterOp] at hop
  | resolve now id => simp [isRegisterOp] at hop
  | autoEscalate now => simp [isRegisterOp] at hop
  | addOperator name roles => simp [isRegisterOp] at hop

/-- Register-only runs preserve the queue shape. -/
lemma queueBiased_runOps (ops : List DispatchOp) :
    ∀ st : DispatcherState, (∀ op ∈ ops, isRegisterOp op = true) →
      QueueBiased st → QueueBiased (runOps st ops) := by
  induction ops with
  | nil => intro st _ h; exact h
  | cons o rest ih =>
    intro st hops h
    exact ih _ (fun op hop => hops op (List.mem_cons_of_mem _ hop))
      (queueBiased_applyOp st o (hops o (List.mem_cons_self _ _)) h)

/-- **C5** amended: after any sequence of registrations on a fresh dispatcher,
the pending queue holds the high-priority incidents at the front in *reverse*
registration order (most recently registered first) and all other incidents at
the back in registration order.  (The claim's assertion that among two
high-priority pending incidents the earlier-registered appears first is false;
the non-high tier does preserve insertion order.) -/
theorem pending_queue_order (ops : List DispatchOp)
    (hops : ∀ op ∈ ops, isRegisterOp op = true) :
    (runOps initState ops).pending_queue =
      ((runOps initState ops).incidents.filter (fun i => i.priority == "high")).reverse ++
        (runOps initState ops).incidents.filter (fun i => !(i.priority == "high")) :=
  queueBiased_runOps ops initState hops rfl

/-- Witness for C5 (amended), at the two-high-registrations run. -/
theorem pending_queue_order_witness :
    (∀ op ∈ opsTwoHigh, isRegisterOp op = true) ∧
    (runOps initState opsTwoHigh).pending_queue =
      ((runOps initState opsTwoHigh).incidents.filter (fun i => i.priority == "high")).reverse ++
        (runOps initState opsTwoHigh).incidents.filter (fun i => !(i.priority == "high")) :=
  ⟨by decide, pending_queue_order opsTwoHigh (by decide)⟩

end IncidentSim

namespace IncidentSim

/-! ## C7: ids are sequential -/

/-- Arguments of one `register_incident` call. -/
structure RegisterRequest where
  now : Int
  incident_type : String
  priority : String
  description : String
deriving DecidableEq, Repr

/-- A request on which `register_incident` takes the success path: the type is
non-empty after stripping (the `@validate_input` decorator) and full
validation finds no violations. -/
def valid_register_request (r : RegisterRequest) : Bool :=
  !(py_strip r.incident_type == "") &&
    (IncidentValidator.validate_all_incident_data
      r.incident_type r.priority r.description).isEmpty

/-- The ids returned by a sequence of `register_incident` calls (failed calls
return `None`/raise and contribute nothing). -/
def register_run_ids (st : DispatcherState) : List RegisterRequest → List Nat
  | [] => []
  | r :: rest =>
    match IncidentDispatcher.register_incident st r.now r.incident_type
        r.priority r.description with
    | (.ok i, st') => i :: register_run_ids st' rest
    | (_, st') => register_run_ids st' rest

/-- `register_run_ids` on a cons, unfolded. -/
lemma register_run_ids_cons (st : DispatcherState) (r : RegisterRequest)
    (rest : List RegisterRequest) :
    register_run_ids st (r :: rest) =
      match IncidentDispatcher.register_incident st r.now r.incident_type
          r.priority r.description with
      | (.ok i, st2) => i :: register_run_ids st2 rest
      | (_, st2) => register_run_ids st2 rest := rfl

/-- Success path of `register_incident`, packaged for the id computation. -/
lemma register_incident_ok_next (st : DispatcherState) (now : Int) (t p d : String)
    (h1 : (py_strip t == "") = false)
    (h2 : (IncidentValidator.validate_all_incident_data t p d).isEmpty = true) :
    ∃ st2 : DispatcherState,
      IncidentDispatcher.register_incident st now t p d = (.ok st.next_id, st2) ∧
      st2.next_id = st.next_id + 1 :=
  ⟨_, register_incident_ok st now t p d h1 h2, rfl⟩

/-- The returned ids are exactly the consecutive integers starting at the
current counter, one per valid request. -/
lemma register_run_ids_eq (reqs : List RegisterRequest) :
    ∀ st : DispatcherState, register_run_ids st reqs =
      List.range' st.next_id (reqs.countP valid_register_request) := by
  induction reqs with
  | nil => intro st; rfl
  | cons r rest ih =>
    intro st
    by_cases hv : valid_register_request r = true
    · have hcomp : (py_strip r.incident_type == "") = false ∧
          (IncidentValidator.validate_all_incident_data r.incident_type
            r.priority r.description).isEmpty = true := by
        have h := hv
        unfold valid_register_request at h
        simpa [Bool.and_eq_true, Bool.not_eq_true'] using h
      obtain ⟨st2, hok, hnid⟩ := register_incident_ok_next st r.now r.incident_type
        r.priority r.description hcomp.1 hcomp.2
      rw [register_run_ids_cons, hok]
      show st.next_id :: register_run_ids st2 rest = _
      rw [ih st2, hnid, List.countP_cons_of_pos _ _ hv,
        List.range'_succ st.next_id _ 1]
    · have h : (py_strip r.incident_type == "") = true ∨
          (IncidentValidator.validate_all_incident_data r.incident_type
            r.priority r.description).isEmpty = false := by
        by_cases ha : (py_strip r.incident_type == "") = true
        · exact Or.inl ha
        · right
          cases hc : (IncidentValidator.validate_all_incident_data
              r.incident_type r.priority r.description).isEmpty
          · rfl
          · exfalso
            apply hv
            have ha' : (py_strip r.incident_type == "") = false := by
              cases hx : (py_strip r.incident_type == "")
              · rfl
              · exact absurd hx ha
            unfold valid_register_request
            rw [ha', hc]
            rfl
      have hfail := register_incident_fail st r.now r.incident_type r.priority
        r.description h
      have hpair : IncidentDispatcher.register_incident st r.now r.incident_type
          r.priority r.description =
          ((IncidentDispatcher.register_incident st r.now r.incident_type
            r.priority r.description).1, st) :=
        Prod.ext rfl hfail.1
      rw [register_run_ids_cons, hpair]
      cases hres1 : (IncidentDispatcher.register_incident st r.now r.incident_type
          r.priority r.description).1 with
      | ok i => exact absurd hres1 (hfail.2 i)
      | raised v =>
        show register_run_ids st rest = _
        rw [ih st, List.countP_cons_of_neg _ _ (by simpa using hv)]
      | failed v =>
        show register_run_ids st rest = _
        rw [ih st, List.countP_cons_of_neg _ _ (by simpa using hv)]

/-- **C7**: over any sequence of `register_incident` calls on a fresh
dispatcher with no persisted data, the returned ids are exactly
`1, 2, …, k` (`k` = number of successful calls) in call order — unique,
strictly increasing, starting at 1, never reused. -/
theorem register_ids_sequential (reqs : List RegisterRequest) :
    register_run_ids initState reqs =
      List.range' 1 (reqs.countP valid_register_request) ∧
    (register_run_ids initState reqs).Pairwise (· < ·) ∧
    (register_run_ids initState reqs).Nodup := by
  have h := register_run_ids_eq reqs initState
  refine ⟨h, ?_, ?_⟩
  · rw [h]; exact List.pairwise_lt_range' _ _
  · rw [h]; exact List.nodup_range' _ _

/-! ## C2: `resolve_incident` -/

/-- The `resolved` history entry appended by a successful `resolve_incident`. -/
def resolved_entry (now : Int) (incident_id : Nat) (incident : Incident) : HistoryEntry :=
  { timestamp := now, action := "resolved", incident_id := incident_id,
    operator := incident.assigned_to,
    details := "Resuelto por " ++ incident.assigned_to.getD "sistema" }

/-- Success branch of `resolve_incident`. -/
lemma resolve_incident_ok (st : DispatcherState) (now : Int) (incident_id : Nat)
    (incident : Incident) (hget : dict_get st.incidents incident_id = some incident)
    (hcond : (incident.status == "pending" || incident.status == "in_progress") = true) :
    IncidentDispatcher.resolve_incident st now incident_id =
      (true,
       { st with
          incidents := dict_set st.incidents incident_id (incident.with_status "resolved"),
          pending_queue := st.pending_queue.filter (fun i => i.id != incident_id),
          history := st.history ++ [resolved_entry now incident_id incident] }) := by
  unfold IncidentDispatcher.resolve_incident resolved_entry
  rw [hget]
  simp only [hcond, if_true]

/-- Failure branches of `resolve_incident`. -/
lemma resolve_incident_fail (st : DispatcherState) (now : Int) (incident_id : Nat)
    (h : dict_get st.incidents incident_id = none ∨
      ∃ incident, dict_get st.incidents incident_id = some incident ∧
        (incident.status == "pending" || incident.status == "in_progress") = false) :
    IncidentDispatcher.resolve_incident st now incident_id = (false, st) := by
  unfold IncidentDispatcher.resolve_incident
  rcases h with h | ⟨incident, hget, hcond⟩
  · rw [h]
  · rw [hget]
    simp only [hcond, Bool.false_eq_true, if_false]

/-- **C2**: `resolve_incident(id)` succeeds iff the incident exists and its
status is `pending` or `in_progress`; it never succeeds for `resolved` or
`escalated` (in particular an escalated incident can never be resolved); on
success the status becomes `resolved`, the incident is removed from the
pending queue, and a `resolved` history entry is appended; on failure the
state is unchanged. -/
theorem resolve_incident_spec (st : DispatcherState) (now : Int) (incident_id : Nat) :
    ((IncidentDispatcher.resolve_incident st now incident_id).1 = true ↔
      ∃ incident, dict_get st.incidents incident_id = some incident ∧
        (incident.status = "pending" ∨ incident.status = "in_progress")) ∧
    (∀ incident, dict_get st.incidents incident_id = some incident →
      (incident.status = "resolved" ∨ incident.status = "escalated") →
      (IncidentDispatcher.resolve_incident st now incident_id).1 = false) ∧
    (∀ incident, dict_get st.incidents incident_id = some incident →
      (IncidentDispatcher.resolve_incident st now incident_id).1 = true →
      dict_get (IncidentDispatcher.resolve_incident st now incident_id).2.incidents
          incident_id = some (incident.with_status "resolved") ∧
      (incident.with_status "resolved").status = "resolved" ∧
      (incident.with_status "resolved").assigned_to = incident.assigned_to ∧
      (∀ i ∈ (IncidentDispatcher.resolve_incident st now incident_id).2.pending_queue,
          i.id ≠ incident_id) ∧
      (IncidentDispatcher.resolve_incident st now incident_id).2.history
          = st.history ++ [resolved_entry now incident_id incident]) ∧
    ((IncidentDispatcher.resolve_incident st now incident_id).1 = false →
      (IncidentDispatcher.resolve_incident st now incident_id).2 = st) := by
  cases hget : dict_get st.incidents incident_id with
  | none =>
    have hr := resolve_incident_fail st now incident_id (Or.inl hget)
    rw [hr]
    refine ⟨?_, ?_, ?_, ?_⟩
    · constructor
      · intro h; exact Bool.noConfusion h
      · rintro ⟨incident, hinc, _⟩; cases hinc
    · intro incident hinc _; rfl
    · intro incident hinc _; cases hinc
    · intro _; rfl
  | some incident0 =>
    by_cases hcond : (incident0.status == "pending" || incident0.status == "in_progress") = true
    · have hr := resolve_incident_ok st now incident_id incident0 hget hcond
      have hcond' : incident0.status = "pending" ∨ incident0.status = "in_progress" := by
        simpa [Bool.or_eq_true] using hcond
      rw [hr]
      refine ⟨?_, ?_, ?_, ?_⟩
      · exact ⟨fun _ => ⟨incident0, rfl, hcond'⟩, fun _ => rfl⟩
      · intro incident hinc hstat
        injection hinc with he
        subst he
        rcases hcond' with h | h <;> rcases hstat with h2 | h2 <;>
          rw [h2] at h <;> exact absurd h (by decide)
      · intro incident hinc _
        injection hinc with he
        subst he
        refine ⟨?_, rfl, rfl, ?_, rfl⟩
        · have hid0 : incident0.id = incident_id := id_of_dict_get hget
          have hid : (incident0.with_status "resolved").id = incident_id := hid0
          exact @dict_get_dict_set_self st.incidents incident_id
            (incident0.with_status "resolved") hid incident0 hget
        · intro i hi
          have := (List.mem_filter.1 hi).2
          simpa using this
      · intro h; exact Bool.noConfusion h
    · have hcondf : (incident0.status == "pending" || incident0.status == "in_progress") = false := by
        cases hx : (incident0.status == "pending" || incident0.status == "in_progress")
        · rfl
        · exact absurd hx hcond
      have hr := resolve_incident_fail st now incident_id
        (Or.inr ⟨incident0, hget, hcondf⟩)
      rw [hr]
      refine ⟨?_, ?_, ?_, ?_⟩
      · constructor
        · intro h; exact Bool.noConfusion h
        · rintro ⟨incident, hinc, hs⟩
          injection hinc with he
          subst he
          exfalso
          apply hcond
          rcases hs with h | h <;> simp [h]
      · intro incident hinc _; rfl
      · intro incident hinc htrue; exact Bool.noConfusion htrue
      · intro _; rfl

/-- Scenario shared by several witnesses: one operator who can handle
`infrastructure` incidents, one registered infrastructure incident. -/
def opsBase : List DispatchOp :=
  [.addOperator "Bob" ["infrastructure"],
   .register 0 "infrastructure" "low" "router is down"]

/-- The dispatcher state after `opsBase`. -/
def stBase : DispatcherState := runOps initState opsBase

/-- The incident produced by `opsBase`. -/
def incBase : Incident :=
  { id := 1, type := "infrastructure", priority := "low",
    description := "router is down", created_at := 0, assigned_to := none,
    status := "pending" }

/-- Witness for C2: resolving the pending incident of `stBase` succeeds and
has the stated effects. -/
theorem resolve_incident_spec_witness :
    dict_get stBase.incidents 1 = some incBase ∧
    (IncidentDispatcher.resolve_incident stBase 7 1).1 = true ∧
    dict_get (IncidentDispatcher.resolve_incident stBase 7 1).2.incidents 1
        = some (incBase.with_status "resolved") := by
  refine ⟨by decide, by decide, ?_⟩
  exact (((resolve_incident_spec stBase 7 1).2.2.1) incBase (by decide) (by decide)).1

end IncidentSim

namespace IncidentSim

/-! ## C1: `assign_incident` -/

/-- The `assigned` history entry appended by a successful `assign_incident`. -/
def assigned_entry (now : Int) (incident_id : Nat) (operator_name : String) : HistoryEntry :=
  { timestamp := now, action := "assigned", incident_id := incident_id,
    operator := some operator_name, details := "Asignado a " ++ operator_name }

/-- Success branch of `assign_incident`: all five guards pass. -/
lemma assign_incident_ok (st : DispatcherState) (now : Int) (incident_id : Nat)
    (operator_name : String) (incident : Incident) (operator : Operator)
    (hget : dict_get st.incidents incident_id = some incident)
    (hstat : (incident.status != "pending") = false)
    (hop : op_get st.operators operator_name = some operator)
    (hav : (!operator.available) = false)
    (hcan : (!operator.can_handle incident.type) = false) :
    IncidentDispatcher.assign_incident st now incident_id operator_name =
      (true,
       { st with
          incidents := dict_set st.incidents incident_id
            (incident.with_assignment operator_name),
          pending_queue := st.pending_queue.filter (fun i => i.id != incident_id),
          history := st.history ++ [assigned_entry now incident_id operator_name] }) := by
  unfold IncidentDispatcher.assign_incident assigned_entry
  rw [hget]
  simp only [hstat, hop, hav, hcan, Bool.false_eq_true, if_false]

/-- **C1**: `assign_incident(id, operator_name)` succeeds iff the incident
exists with status `pending`, the operator exists, is available, and the
incident's type is in the operator's roles; on success the stored incident
becomes the `with_assignment` result (status `in_progress`, `assigned_to` the
operator's name), the incident leaves the pending queue and an `assigned`
history entry is appended; on failure the state is unchanged. -/
theorem assign_incident_spec (st : DispatcherState) (now : Int) (incident_id : Nat)
    (operator_name : String) :
    ((IncidentDispatcher.assign_incident st now incident_id operator_name).1 = true ↔
      ∃ incident operator,
        dict_get st.incidents incident_id = some incident ∧
        incident.status = "pending" ∧
        op_get st.operators operator_name = some operator ∧
        operator.available = true ∧
        operator.can_handle incident.type = true) ∧
    (∀ incident, dict_get st.incidents incident_id = some incident →
      (IncidentDispatcher.assign_incident st now incident_id operator_name).1 = true →
      dict_get (IncidentDispatcher.assign_incident st now incident_id operator_name).2.incidents
          incident_id = some (incident.with_assignment operator_name) ∧
      (incident.with_assignment operator_name).status = "in_progress" ∧
      (incident.with_assignment operator_name).assigned_to = some operator_name ∧
      (∀ i ∈ (IncidentDispatcher.assign_incident st now incident_id operator_name).2.pending_queue,
          i.id ≠ incident_id) ∧
      (IncidentDispatcher.assign_incident st now incident_id operator_name).2.history
          = st.history ++ [assigned_entry now incident_id operator_name]) ∧
    ((IncidentDispatcher.assign_incident st now incident_id operator_name).1 = false →
      (IncidentDispatcher.assign_incident st now incident_id operator_name).2 = st) := by
  cases hget : dict_get st.incidents incident_id with
  | none =>
    have hr : IncidentDispatcher.assign_incident st now incident_id operator_name
        = (false, st) := by
      unfold IncidentDispatcher.assign_incident
      rw [hget]
    rw [hr]
    refine ⟨⟨fun h => Bool.noConfusion h, ?_⟩, ?_, fun _ => rfl⟩
    · rintro ⟨inc, op, hinc, _⟩; cases hinc
    · intro inc hinc; cases hinc
  | some incident0 =>
    by_cases hstat : (incident0.status != "pending") = true
    · have hr : IncidentDispatcher.assign_incident st now incident_id operator_name
          = (false, st) := by
        unfold IncidentDispatcher.assign_incident
        rw [hget]
        simp only [hstat, if_true]
      rw [hr]
      refine ⟨⟨fun h => Bool.noConfusion h, ?_⟩, ?_, fun _ => rfl⟩
      · rintro ⟨inc, op, hinc, hpend, _⟩
        injection hinc with he
        subst he
        rw [hpend] at hstat
        exact absurd hstat (by decide)
      · intro inc hinc htrue; exact Bool.noConfusion htrue
    · have hstat' : (incident0.status != "pending") = false := by
        cases hx : (incident0.status != "pending")
        · rfl
        · exact absurd hx hstat
      cases hop : op_get st.operators operator_name with
      | none =>
        have hr : IncidentDispatcher.assign_incident st now incident_id operator_name
            = (false, st) := by
          unfold IncidentDispatcher.assign_incident
          rw [hget]
          simp only [hstat', Bool.false_eq_true, if_false, hop]
        rw [hr]
        refine ⟨⟨fun h => Bool.noConfusion h, ?_⟩, ?_, fun _ => rfl⟩
        · rintro ⟨inc, op, hinc, hpend, hopeq, _⟩
          cases hopeq
        · intro inc hinc htrue; exact Bool.noConfusion htrue
      | some operator0 =>
        by_cases hav : (!operator0.available) = true
        · have hr : IncidentDispatcher.assign_incident st now incident_id operator_name
              = (false, st) := by
            unfold IncidentDispatcher.assign_incident
            rw [hget]
            simp only [hstat', Bool.false_eq_true, if_false, hop, hav, if_true]
          rw [hr]
          refine ⟨⟨fun h => Bool.noConfusion h, ?_⟩, ?_, fun _ => rfl⟩
          · rintro ⟨inc, op, hinc, hpend, hopeq, hava, _⟩
            injection hopeq with he
            subst he
            rw [hava] at hav
            exact absurd hav (by decide)
          · intro inc hinc htrue; exact Bool.noConfusion htrue
        · have hav' : (!operator0.available) = false := by
            cases hx : (!operator0.available)
            · rfl
            · exact absurd hx hav
          by_cases hcan : (!operator0.can_handle incident0.type) = true
          · have hr : IncidentDispatcher.assign_incident st now incident_id operator_name
                = (false, st) := by
              unfold IncidentDispatcher.assign_incident
              rw [hget]
              simp only [hstat', hav', Bool.false_eq_true, if_false, hop, hcan, if_true]
            rw [hr]
            refine ⟨⟨fun h => Bool.noConfusion h, ?_⟩, ?_, fun _ => rfl⟩
            · rintro ⟨inc, op, hinc, hpend, hopeq, hava, hcana⟩
              injection hinc with he
              subst he
              injection hopeq with he2
              subst he2
              rw [hcana] at hcan
              exact absurd hcan (by decide)
            · intro inc hinc htrue; exact Bool.noConfusion htrue
          · have hcan' : (!operator0.can_handle incident0.type) = false := by
              cases hx : (!operator0.can_handle incident0.type)
              · rfl
              · exact absurd hx hcan
            have hr := assign_incident_ok st now incident_id operator_name incident0
              operator0 hget hstat' hop hav' hcan'
            rw [hr]
            have hpend0 : incident0.status = "pending" := by
              simpa using hstat'
            have hava0 : operator0.available = true := by
              simpa using hav'
            have hcana0 : operator0.can_handle incident0.type = true := by
              simpa using hcan'
            refine ⟨⟨fun _ => ⟨incident0, operator0, rfl, hpend0, rfl, hava0, hcana0⟩,
              fun _ => rfl⟩, ?_, fun h => Bool.noConfusion h⟩
            intro inc hinc _
            injection hinc with he
            subst he
            have hid0 : incident0.id = incident_id := id_of_dict_get hget
            have hid : (incident0.with_assignment operator_name).id = incident_id := hid0
            refine ⟨?_, rfl, rfl, ?_, rfl⟩
            · exact @dict_get_dict_set_self st.incidents incident_id
                (incident0.with_assignment operator_name) hid incident0 hget
            · intro i hi
              have := (List.mem_filter.1 hi).2
              simpa using this

/-- Witness for C1: in `stBase`, operator `Bob` (roles `["infrastructure"]`)
is assigned the pending infrastructure incident. -/
theorem assign_incident_spec_witness :
    dict_get stBase.incidents 1 = some incBase ∧
    (IncidentDispatcher.assign_incident stBase 3 1 "Bob").1 = true ∧
    dict_get (IncidentDispatcher.assign_incident stBase 3 1 "Bob").2.incidents 1
        = some (incBase.with_assignment "Bob") := by
  refine ⟨by decide, by decide, ?_⟩
  exact ((assign_incident_spec stBase 3 1 "Bob").2.1 incBase (by decide) (by decide)).1

end IncidentSim

namespace IncidentSim

/-! ## C6: the `assigned_to`/`status` relationship -/

/-- A run in which an assigned incident is then resolved. -/
def opsAssignResolve : List DispatchOp :=
  [.addOperator "Bob" ["infrastructure"],
   .register 0 "infrastructure" "low" "router is down",
   .assign 1 1 "Bob",
   .resolve 2 1]

/-- **C6** counterexample: after add-operator, register, assign, resolve, the
stored incident has `status = "resolved"` **and** `assigned_to = "Bob"` —
`with_status` keeps `assigned_to`, so a resolved incident retains its
assignee, contradicting the claim that `assigned_to` is null in every status
other than `in_progress`. -/
theorem resolved_incident_keeps_assignee :
    dict_get (runOps initState opsAssignResolve).incidents 1 =
      some { id := 1, type := "infrastructure", priority := "low",
             description := "router is down", created_at := 0,
             assigned_to := some "Bob", status := "resolved" } := by
  decide

/-- The two-sided relationship that actually holds between `assigned_to` and
`status`. -/
def AssignedToInv (st : DispatcherState) : Prop :=
  ∀ incident ∈ st.incidents,
    (incident.status = "pending" → incident.assigned_to = none) ∧
    (incident.status = "in_progress" → incident.assigned_to ≠ none)

/-- `add_operator` does not touch the incident table. -/
lemma add_operator_incidents (st : DispatcherState) (name : String)
    (roles : List String) :
    (IncidentDispatcher.add_operator st name roles).2.incidents = st.incidents := by
  unfold IncidentDispatcher.add_operator
  cases hx : IncidentValidator.validate_operator_name name
  · simp only [hx, Bool.false_eq_true, if_false]
  · simp only [hx, if_true]

/-- State after `assign_incident`: unchanged, or the success update. -/
lemma assign_incident_state (st : DispatcherState) (now : Int) (incident_id : Nat)
    (operator_name : String) :
    (IncidentDispatcher.assign_incident st now incident_id operator_name).2 = st ∨
    ∃ incident, dict_get st.incidents incident_id = some incident ∧
      (IncidentDispatcher.assign_incident st now incident_id operator_name).2 =
        { st with
           incidents := dict_set st.incidents incident_id
             (incident.with_assignment operator_name),
           pending_queue := st.pending_queue.filter (fun i => i.id != incident_id),
           history := st.history ++ [assigned_entry now incident_id operator_name] } := by
  cases hget : dict_get st.incidents incident_id with
  | none =>
    left
    unfold IncidentDispatcher.assign_incident
    rw [hget]
  | some incident0 =>
    by_cases hstat : (incident0.status != "pending") = true
    · left
      unfold IncidentDispatcher.assign_incident
      rw [hget]
      simp only [hstat, if_true]
    · have hstat' : (incident0.status != "pending") = false := by
        cases hx : (incident0.status != "pending")
        · rfl
        · exact absurd hx hstat
      cases hop : op_get st.operators operator_name with
      | none =>
        left
        unfold IncidentDispatcher.assign_incident
        rw [hget]
        simp only [hstat', Bool.false_eq_true, if_false, hop]
      | some operator0 =>
        by_cases hav : (!operator0.available) = true
        · left
          unfold IncidentDispatcher.assign_incident
          rw [hget]
          simp only [hstat', Bool.false_eq_true, if_false, hop, hav, if_true]
        · have hav' : (!operator0.available) = false := by
            cases hx : (!operator0.available)
            · rfl
            · exact absurd hx hav
          by_cases hcan : (!operator0.can_handle incident0.type) = true
          · left
            unfold IncidentDispatcher.assign_incident
            rw [hget]
            simp only [hstat', hav', Bool.false_eq_true, if_false, hop, hcan, if_true]
          · have hcan' : (!operator0.can_handle incident0.type) = false := by
              cases hx : (!operator0.can_handle incident0.type)
              · rfl
              · exact absurd hx hcan
            right
            refine ⟨incident0, rfl, ?_⟩
            rw [assign_incident_ok st now incident_id operator_name incident0
              operator0 hget hstat' hop hav' hcan']

/-- State after `resolve_incident`: unchanged, or the success update. -/
lemma resolve_incident_state (st : DispatcherState) (now : Int) (incident_id : Nat) :
    (IncidentDispatcher.resolve_incident st now incident_id).2 = st ∨
    ∃ incident, dict_get st.incidents incident_id = some incident ∧
      (IncidentDispatcher.resolve_incident st now incident_id).2 =
        { st with
           incidents := dict_set st.incidents incident_id
             (incident.with_status "resolved"),
           pending_queue := st.pending_queue.filter (fun i => i.id != incident_id),
           history := st.history ++ [resolved_entry now incident_id incident] } := by
  cases hget : dict_get st.incidents incident_id with
  | none => exact Or.inl (by rw [resolve_incident_fail st now incident_id (Or.inl hget)])
  | some incident0 =>
    by_cases hcond : (incident0.status == "pending" || incident0.status == "in_progress") = true
    · right
      exact ⟨incident0, rfl, by rw [resolve_incident_ok st now incident_id incident0 hget hcond]⟩
    · have hcondf : (incident0.status == "pending" || incident0.status == "in_progress") = false := by
        cases hx : (incident0.status == "pending" || incident0.status == "in_progress")
        · rfl
        · exact absurd hx hcond
      exact Or.inl (by
        rw [resolve_incident_fail st now incident_id (Or.inr ⟨incident0, hget, hcondf⟩)])

/-- Escalation steps preserve the relationship. -/
lemma assignedToInv_escalate_fold (now : Int) (hits : List Incident) :
    ∀ st : DispatcherState, AssignedToInv st →
      AssignedToInv (hits.foldl (IncidentDispatcher.escalate_step now) st) := by
  induction hits with
  | nil => exact fun st h => h
  | cons a rest ih =>
    intro st h
    apply ih
    intro x hx
    rcases mem_dict_set hx with hx' | rfl
    · exact h x hx'
    · exact ⟨fun hc => absurd hc (by decide : ¬(("escalated" : String) = "pending")),
        fun hc => absurd hc (by decide : ¬(("escalated" : String) = "in_progress"))⟩

/-- Every dispatcher operation preserves the relationship. -/
lemma assignedToInv_applyOp (st : DispatcherState) (op : DispatchOp)
    (h : AssignedToInv st) : AssignedToInv (applyOp st op) := by
  cases op with
  | register now t p d =>
    show AssignedToInv (IncidentDispatcher.register_incident st now t p d).2
    rcases register_incident_state st now t p d with heq | heq
    · rw [heq]; exact h
    · rw [heq]
      intro x hx
      rcases List.mem_append.1 hx with hx' | hx'
      · exact h x hx'
      · have hxv : x = registered_incident st now t p d := List.mem_singleton.1 hx'
        subst hxv
        exact ⟨fun _ => rfl,
          fun hc => absurd hc (by decide : ¬(("pending" : String) = "in_progress"))⟩
  | assign now id opn =>
    show AssignedToInv (IncidentDispatcher.assign_incident st now id opn).2
    rcases assign_incident_state st now id opn with heq | ⟨inc, _, heq⟩
    · rw [heq]; exact h
    · rw [heq]
      intro x hx
      rcases mem_dict_set hx with hx' | rfl
      · exact h x hx'
      · exact ⟨fun hc => absurd hc (by decide : ¬(("in_progress" : String) = "pending")),
          fun _ hc => Option.noConfusion hc⟩
  | resolve now id =>
    show AssignedToInv (IncidentDispatcher.resolve_incident st now id).2
    rcases resolve_incident_state st now id with heq | ⟨inc, _, heq⟩
    · rw [heq]; exact h
    · rw [heq]
      intro x hx
      rcases mem_dict_set hx with hx' | rfl
      · exact h x hx'
      · exact ⟨fun hc => absurd hc (by decide : ¬(("resolved" : String) = "pending")),
          fun hc => absurd hc (by decide : ¬(("resolved" : String) = "in_progress"))⟩
  | autoEscalate now =>
    show AssignedToInv (IncidentDispatcher.auto_escalate_incidents st now).2
    exact assignedToInv_escalate_fold now _ st h
  | addOperator name roles =>
    intro x hx
    rw [show applyOp st (.addOperator name roles)
        = (IncidentDispatcher.add_operator st name roles).2 from rfl,
      add_operator_incidents] at hx
    exact h x hx

/-- Runs preserve the relationship. -/
lemma assignedToInv_runOps (ops : List DispatchOp) :
    ∀ st : DispatcherState, AssignedToInv st → AssignedToInv (runOps st ops) := by
  induction ops with
  | nil => exact fun _ h => h
  | cons o rest ih =>
    intro st h
    exact ih _ (assignedToInv_applyOp st o h)

/-- **C6** amended: after any sequence of dispatcher operations on a fresh
dispatcher, `assigned_to` is null whenever the status is `pending` and
non-null whenever it is `in_progress`; a `resolved` or `escalated` incident
keeps whatever assignee it had when it left `in_progress` (`with_status`
does not clear `assigned_to`), so `assigned_to` may be non-null there. -/
theorem assigned_to_invariant (ops : List DispatchOp) :
    ∀ incident ∈ (runOps initState ops).incidents,
      (incident.status = "pending" → incident.assigned_to = none) ∧
      (incident.status = "in_progress" → incident.assigned_to ≠ none) :=
  assignedToInv_runOps ops initState
    (fun x hx => absurd hx (List.not_mem_nil x))

/-- Witness for C6 (amended): the pending incident of `opsBase` has
`assigned_to = none`. -/
theorem assigned_to_invariant_witness :
    incBase ∈ (runOps initState opsBase).incidents ∧
    incBase.status = "pending" ∧
    incBase.assigned_to = none :=
  ⟨by decide, by decide,
   (assigned_to_invariant opsBase incBase (by decide)).1 (by decide)⟩

end IncidentSim

namespace IncidentSim

/-! ## C4: automatic escalation -/

/-- The `escalated` history entry appended for each escalated incident. -/
def escalated_entry (now : Int) (incident_id : Nat) : HistoryEntry :=
  { timestamp := now, action := "escalated", incident_id := incident_id,
    operator := none, details := "Escalado automáticamente por tiempo" }

lemma escalate_step_eq (now : Int) (st : DispatcherState) (incident : Incident) :
    IncidentDispatcher.escalate_step now st incident =
      { st with
         incidents := dict_set st.incidents incident.id
           (IncidentEscalator.escalate_incident incident),
         pending_queue := st.pending_queue.filter (fun i => i.id != incident.id),
         history := st.history ++ [escalated_entry now incident.id] } := rfl

/-- `auto_escalate_incidents`, unfolded. -/
lemma auto_escalate_eq (st : DispatcherState) (now : Int) :
    IncidentDispatcher.auto_escalate_incidents st now =
      ((IncidentEscalator.find_escalatable_incidents (dispatcher_strategy now)
          (IncidentDispatcher.get_incidents_by_status st "pending" ++
           IncidentDispatcher.get_incidents_by_status st "in_progress")).length,
       (IncidentEscalator.find_escalatable_incidents (dispatcher_strategy now)
          (IncidentDispatcher.get_incidents_by_status st "pending" ++
           IncidentDispatcher.get_incidents_by_status st "in_progress")).foldl
         (IncidentDispatcher.escalate_step now) st) := rfl

/-- Ids not hit by the sweep keep their table entry. -/
lemma fold_dict_get_untouched (now : Int) (hits : List Incident) :
    ∀ (st : DispatcherState) (j : Nat), (∀ h ∈ hits, h.id ≠ j) →
      dict_get ((hits.foldl (IncidentDispatcher.escalate_step now) st).incidents) j
        = dict_get st.incidents j := by
  induction hits with
  | nil => intro st j _; rfl
  | cons a rest ih =>
    intro st j hne
    have h1 := ih (IncidentDispatcher.escalate_step now st a) j
      (fun h hh => hne h (List.mem_cons_of_mem _ hh))
    have h2 : dict_get ((IncidentDispatcher.escalate_step now st a).incidents) j
        = dict_get st.incidents j :=
      dict_get_dict_set_ne rfl (fun hj => hne a (List.mem_cons_self _ _) hj.symm)
    exact h1.trans h2

/-- A hit incident's table entry becomes the escalated instance. -/
lemma fold_dict_get_hit (now : Int) (hits : List Incident) :
    ∀ (st : DispatcherState) (incident : Incident), incident ∈ hits →
      (hits.map (fun i => i.id)).Nodup →
      dict_get st.incidents incident.id = some incident →
      dict_get ((hits.foldl (IncidentDispatcher.escalate_step now) st).incidents)
          incident.id = some (incident.with_status "escalated") := by
  induction hits with
  | nil => intro st incident h; cases h
  | cons a rest ih =>
    intro st incident hmem hnodup hget
    rcases List.mem_cons.1 hmem with rfl | hmem'
    · have hstep : dict_get ((IncidentDispatcher.escalate_step now st incident).incidents)
          incident.id = some (incident.with_status "escalated") :=
        @dict_get_dict_set_self st.incidents incident.id
          (IncidentEscalator.escalate_incident incident) rfl incident hget
      have hne : ∀ h ∈ rest, h.id ≠ incident.id := by
        intro h hh hcontra
        exact (List.nodup_cons.1 hnodup).1 (List.mem_map.2 ⟨h, hh, hcontra⟩)
      exact (fold_dict_get_untouched now rest
        (IncidentDispatcher.escalate_step now st incident) incident.id hne).trans hstep
    · have hne : a.id ≠ incident.id := by
        intro hcontra
        apply (List.nodup_cons.1 hnodup).1
        show a.id ∈ List.map (fun i => i.id) rest
        rw [hcontra]
        exact List.mem_map.2 ⟨incident, hmem', rfl⟩
      have hget' : dict_get ((IncidentDispatcher.escalate_step now st a).incidents)
          incident.id = some incident :=
        (@dict_get_dict_set_ne st.incidents a.id incident.id
          (IncidentEscalator.escalate_incident a) rfl
          (fun hj => hne hj.symm)).trans hget
      exact ih (IncidentDispatcher.escalate_step now st a) incident hmem'
        (List.nodup_cons.1 hnodup).2 hget'

/-- The sweep only removes from the pending queue. -/
lemma fold_queue_subset (now : Int) (hits : List Incident) :
    ∀ (st : DispatcherState) (i : Incident),
      i ∈ (hits.foldl (IncidentDispatcher.escalate_step now) st).pending_queue →
      i ∈ st.pending_queue := by
  induction hits with
  | nil => intro st i h; exact h
  | cons a rest ih =>
    intro st i h
    have h1 := ih (IncidentDispatcher.escalate_step now st a) i h
    simp only [escalate_step_eq] at h1
    exact (List.mem_filter.1 h1).1

/-- A hit incident is removed from the pending queue. -/
lemma fold_queue_removed (now : Int) (hits : List Incident) :
    ∀ (st : DispatcherState) (incident : Incident), incident ∈ hits →
      ∀ i ∈ (hits.foldl (IncidentDispatcher.escalate_step now) st).pending_queue,
        i.id ≠ incident.id := by
  induction hits with
  | nil => intro st incident h; cases h
  | cons a rest ih =>
    intro st incident hmem i hi
    rcases List.mem_cons.1 hmem with rfl | hmem'
    · have hqi := fold_queue_subset now rest
        (IncidentDispatcher.escalate_step now st incident) i hi
      simp only [escalate_step_eq] at hqi
      have := (List.mem_filter.1 hqi).2
      simpa using this
    · exact ih (IncidentDispatcher.escalate_step now st a) incident hmem' i hi

/-- The sweep never deletes history entries. -/
lemma fold_history_mono (now : Int) (hits : List Incident) :
    ∀ (st : DispatcherState) (e : HistoryEntry), e ∈ st.history →
      e ∈ (hits.foldl (IncidentDispatcher.escalate_step now) st).history := by
  induction hits with
  | nil => intro st e h; exact h
  | cons a rest ih =>
    intro st e h
    apply ih (IncidentDispatcher.escalate_step now st a) e
    simp only [escalate_step_eq]
    exact List.mem_append_left _ h

/-- Each hit gets an `escalated` history entry. -/
lemma fold_history_hit (now : Int) (hits : List Incident) :
    ∀ (st : DispatcherState) (incident : Incident), incident ∈ hits →
      escalated_entry now incident.id ∈
        (hits.foldl (IncidentDispatcher.escalate_step now) st).history := by
  induction hits with
  | nil => intro st incident h; cases h
  | cons a rest ih =>
    intro st incident hmem
    rcases List.mem_cons.1 hmem with rfl | hmem'
    · apply fold_history_mono now rest
        (IncidentDispatcher.escalate_step now st incident) (escalated_entry now incident.id)
      simp only [escalate_step_eq]
      exact List.mem_append_right _ (List.mem_singleton.2 rfl)
    · exact ih (IncidentDispatcher.escalate_step now st a) incident hmem'

/-- A high-priority pending/in-progress incident older than 15 minutes
triggers the composite strategy (through its priority-based member). -/
lemma dispatcher_strategy_high (now : Int) (incident : Incident)
    (hpr : incident.priority = "high")
    (hstat : incident.status = "pending" ∨ incident.status = "in_progress")
    (htime : now - incident.created_at > 15 * 60) :
    dispatcher_strategy now incident = true := by
  unfold dispatcher_strategy CompositeEscalation.should_escalate
  simp only [List.any_cons, List.any_nil, Bool.or_false, Bool.or_eq_true]
  right
  unfold PriorityBasedEscalation.should_escalate
  rcases hstat with h | h <;> (simp [hpr, h]; omega)

/-- An incident at most 15 minutes old triggers neither strategy. -/
lemma dispatcher_strategy_fresh (now : Int) (incident : Incident)
    (htime : now - incident.created_at ≤ 15 * 60) :
    dispatcher_strategy now incident = false := by
  have h30 : ¬(now - incident.created_at > (30 : Int) * 60) := by omega
  have h15 : ¬(now - incident.created_at > (15 : Int) * 60) := by omega
  unfold dispatcher_strategy CompositeEscalation.should_escalate
    TimeBasedEscalation.should_escalate PriorityBasedEscalation.should_escalate
  simp [h30, h15]
  refine ⟨fun _ => ?_, fun _ _ => ?_⟩ <;> omega

/-- Hits are incidents of the table. -/
lemma escalatable_subset (st : DispatcherState) (now : Int) :
    ∀ x ∈ IncidentEscalator.find_escalatable_incidents (dispatcher_strategy now)
      (IncidentDispatcher.get_incidents_by_status st "pending" ++
       IncidentDispatcher.get_incidents_by_status st "in_progress"),
      x ∈ st.incidents := by
  intro x hx
  have hx1 := (List.mem_filter.1 hx).1
  rcases List.mem_append.1 hx1 with h | h <;> exact (List.mem_filter.1 h).1

/-- The hits have pairwise distinct ids when the table does. -/
lemma escalatable_ids_nodup (st : DispatcherState) (now : Int)
    (h : (st.incidents.map (fun i => i.id)).Nodup) :
    ((IncidentEscalator.find_escalatable_incidents (dispatcher_strategy now)
      (IncidentDispatcher.get_incidents_by_status st "pending" ++
       IncidentDispatcher.get_incidents_by_status st "in_progress")).map
        (fun i => i.id)).Nodup := by
  apply List.Nodup.sublist (List.Sublist.map _ (List.filter_sublist _))
  rw [List.map_append]
  apply List.nodup_append.2
  refine ⟨?_, ?_, ?_⟩
  · exact List.Nodup.sublist (List.Sublist.map _ (List.filter_sublist _)) h
  · exact List.Nodup.sublist (List.Sublist.map _ (List.filter_sublist _)) h
  · intro a ha hb
    obtain ⟨x, hx, rfl⟩ := List.mem_map.1 ha
    obtain ⟨y, hy, hxy⟩ := List.mem_map.1 hb
    have hx' := List.mem_filter.1 hx
    have hy' := List.mem_filter.1 hy
    have hyx : y = x := List.inj_on_of_nodup_map h hy'.1 hx'.1 hxy
    have h1 : (x.status == "pending") = true := hx'.2
    have h2 : (y.status == "in_progress") = true := hy'.2
    rw [hyx] at h2
    have e1 : x.status = "pending" := by simpa using h1
    have e2 : x.status = "in_progress" := by simpa using h2
    rw [e1] at e2
    exact absurd e2 (by decide)

/-- **C4**: a high-priority incident with status pending or in-progress
created strictly more than 15 minutes ago is escalated by
`auto_escalate_incidents` (its status becomes `escalated`, it leaves the
pending queue, an `escalated` history entry is appended) even though the
general 30-minute threshold may not have elapsed, while an incident created
at most 15 minutes ago keeps its table entry unchanged; the operation returns
the number of escalated incidents. -/
theorem auto_escalate_spec (st : DispatcherState) (now : Int)
    (hnodup : (st.incidents.map (fun i => i.id)).Nodup) :
    (IncidentDispatcher.auto_escalate_incidents st now).1 =
      (IncidentEscalator.find_escalatable_incidents (dispatcher_strategy now)
        (IncidentDispatcher.get_incidents_by_status st "pending" ++
         IncidentDispatcher.get_incidents_by_status st "in_progress")).length ∧
    (∀ incident ∈ st.incidents,
      incident.priority = "high" →
      (incident.status = "pending" ∨ incident.status = "in_progress") →
      now - incident.created_at > 15 * 60 →
      dict_get (IncidentDispatcher.auto_escalate_incidents st now).2.incidents
          incident.id = some (incident.with_status "escalated") ∧
      (∀ i ∈ (IncidentDispatcher.auto_escalate_incidents st now).2.pending_queue,
          i.id ≠ incident.id) ∧
      escalated_entry now incident.id ∈
        (IncidentDispatcher.auto_escalate_incidents st now).2.history) ∧
    (∀ incident ∈ st.incidents,
      now - incident.created_at ≤ 15 * 60 →
      dict_get (IncidentDispatcher.auto_escalate_incidents st now).2.incidents
          incident.id = some incident) := by
  simp only [auto_escalate_eq]
  refine ⟨trivial, ?_, ?_⟩
  · intro incident hmem hpr hstat htime
    have hget : dict_get st.incidents incident.id = some incident :=
      dict_get_of_mem_nodup hmem hnodup
    have hstrat : dispatcher_strategy now incident = true :=
      dispatcher_strategy_high now incident hpr hstat htime
    have hpend_mem : incident ∈
        (IncidentDispatcher.get_incidents_by_status st "pending" ++
         IncidentDispatcher.get_incidents_by_status st "in_progress") := by
      rcases hstat with h | h
      · exact List.mem_append_left _ (List.mem_filter.2 ⟨hmem, by simp [h]⟩)
      · exact List.mem_append_right _ (List.mem_filter.2 ⟨hmem, by simp [h]⟩)
    have hhit : incident ∈ IncidentEscalator.find_escalatable_incidents
        (dispatcher_strategy now)
        (IncidentDispatcher.get_incidents_by_status st "pending" ++
         IncidentDispatcher.get_incidents_by_status st "in_progress") :=
      List.mem_filter.2 ⟨hpend_mem, hstrat⟩
    have hnodup' := escalatable_ids_nodup st now hnodup
    refine ⟨?_, ?_, ?_⟩
    · exact fold_dict_get_hit now _ st incident hhit hnodup' hget
    · exact fold_queue_removed now _ st incident hhit
    · exact fold_history_hit now _ st incident hhit
  · intro incident hmem htime
    have hget : dict_get st.incidents incident.id = some incident :=
      dict_get_of_mem_nodup hmem hnodup
    have hne : ∀ h ∈ IncidentEscalator.find_escalatable_incidents
        (dispatcher_strategy now)
        (IncidentDispatcher.get_incidents_by_status st "pending" ++
         IncidentDispatcher.get_incidents_by_status st "in_progress"),
        h.id ≠ incident.id := by
      intro h hh hcontra
      have hmemh : h ∈ st.incidents := escalatable_subset st now h hh
      have heq : h = incident :=
        List.inj_on_of_nodup_map hnodup hmemh hmem hcontra
      subst heq
      have hstrat := (List.mem_filter.1 hh).2
      rw [dispatcher_strategy_fresh now h htime] at hstrat
      exact Bool.noConfusion hstrat
    exact (fold_dict_get_untouched now _ st incident.id hne).trans hget

/-- Run in which one high-priority incident is 16 minutes old and another is
10 minutes old at sweep time (`now = 960` seconds). -/
def opsEscalation : List DispatchOp :=
  [.register 0 "security" "high" "server breach one",
   .register 360 "security" "high" "server breach two"]

/-- The state after `opsEscalation`. -/
def stEscalation : DispatcherState := runOps initState opsEscalation

/-- The incident registered at time 0 (16 minutes before the sweep). -/
def incHigh1 : Incident :=
  { id := 1, type := "security", priority := "high",
    description := "server breach one", created_at := 0, assigned_to := none,
    status := "pending" }

/-- The incident registered at time 360 (10 minutes before the sweep). -/
def incHigh2 : Incident :=
  { id := 2, type := "security", priority := "high",
    description := "server breach two", created_at := 360, assigned_to := none,
    status := "pending" }

/-- Witness for C4 at the concrete 16-minute/10-minute scenario. -/
theorem auto_escalate_spec_witness :
    (stEscalation.incidents.map (fun i => i.id)).Nodup ∧
    incHigh1 ∈ stEscalation.incidents ∧
    dict_get (IncidentDispatcher.auto_escalate_incidents stEscalation 960).2.incidents 1
        = some (incHigh1.with_status "escalated") ∧
    dict_get (IncidentDispatcher.auto_escalate_incidents stEscalation 960).2.incidents 2
        = some incHigh2 := by
  have h := auto_escalate_spec stEscalation 960 (by decide)
  refine ⟨by decide, by decide, ?_, ?_⟩
  · exact (h.2.1 incHigh1 (by decide) (by decide) (Or.inl (by decide)) (by decide)).1
  · exact h.2.2 incHigh2 (by decide) (by decide)


/-! ## C3: `register_incident` and validation -/

/-- **C3** counterexample: for `register_incident("", "bogus", "ab")` all
three fields are invalid — `validate_all_incident_data` lists three violated
constraints — but the call fails through the `@validate_input` decorator with
a single type message raised before full validation runs: the failure does
not carry the full list of violated constraints. -/
theorem register_decorator_single_message :
    (IncidentDispatcher.register_incident initState 0 "" "bogus" "ab").1
        = .raised ["Tipo de incidente inválido"] ∧
    (IncidentValidator.validate_all_incident_data "" "bogus" "ab").length = 3 ∧
    ["Tipo de incidente inválido"] ≠
      IncidentValidator.validate_all_incident_data "" "bogus" "ab" := by
  decide

/-- Invalid-data branch of `register_incident` (type non-empty): the internal
`ValueError` carries the full violation list, is caught, the call returns
`None`. -/
lemma register_incident_invalid (st : DispatcherState) (now : Int) (t p d : String)
    (h1 : (py_strip t == "") = false)
    (h2 : (IncidentValidator.validate_all_incident_data t p d).isEmpty = false) :
    IncidentDispatcher.register_incident st now t p d =
      (.failed (IncidentValidator.validate_all_incident_data t p d), st) := by
  unfold IncidentDispatcher.register_incident
  simp only [h1, h2, Bool.false_eq_true, if_false]

/-- A valid type is a non-empty string after stripping. -/
lemma validate_type_strip_ne (t : String)
    (ht : IncidentValidator.validate_type t = true) :
    (py_strip t == "") = false := by
  have hmem : t = "infrastructure" ∨ t = "security" ∨ t = "application" := by
    have h := ht
    unfold IncidentValidator.validate_type IncidentValidator.VALID_TYPES at h
    simpa using h
  rcases hmem with h | h | h <;> subst h <;> decide

/-- **C3** amended: if the type is empty or whitespace-only, the
`@validate_input` decorator raises a single-message `ValueError` before full
validation runs (so the failure does not list the other violations) and the
state is unchanged; otherwise, if any field is invalid, a `ValueError`
carrying the full list of all violated constraints (one message per violated
field, in check order) is raised at the point of registration, caught, and
surfaced as the `None` failure result with the state unchanged; if all fields
are valid, an incident with `id = next_id` and `status = "pending"` is
created, `next_id` is incremented, the incident is inserted into the table
and the pending queue, a `created` history entry is appended, and the new id
is returned. -/
theorem register_incident_spec (st : DispatcherState) (now : Int)
    (incident_type priority description : String) :
    (py_strip incident_type = "" →
      (IncidentDispatcher.register_incident st now incident_type priority description).1
          = .raised ["Tipo de incidente inválido"] ∧
      (IncidentDispatcher.register_incident st now incident_type priority description).2
          = st) ∧
    (py_strip incident_type ≠ "" →
     IncidentValidator.validate_all_incident_data incident_type priority description ≠ [] →
      (IncidentDispatcher.register_incident st now incident_type priority description).1
          = .failed (IncidentValidator.validate_all_incident_data
              incident_type priority description) ∧
      (IncidentDispatcher.register_incident st now incident_type priority description).2
          = st) ∧
    (IncidentValidator.validate_type incident_type ≠ true →
      IncidentValidator.TYPE_ERROR_MSG ∈
        IncidentValidator.validate_all_incident_data incident_type priority description) ∧
    (IncidentValidator.validate_priority priority ≠ true →
      IncidentValidator.PRIORITY_ERROR_MSG ∈
        IncidentValidator.validate_all_incident_data incident_type priority description) ∧
    (IncidentValidator.validate_description description ≠ true →
      IncidentValidator.DESCRIPTION_ERROR_MSG ∈
        IncidentValidator.validate_all_incident_data incident_type priority description) ∧
    (IncidentValidator.validate_all_incident_data incident_type priority description = [] →
      IncidentDispatcher.register_incident st now incident_type priority description =
        (.ok st.next_id,
         { st with
            incidents := st.incidents ++
              [registered_incident st now incident_type priority description],
            pending_queue := IncidentDispatcher.add_to_queue st.pending_queue
              (registered_incident st now incident_type priority description),
            next_id := st.next_id + 1,
            history := st.history ++ [created_entry st now incident_type priority] }) ∧
      (registered_incident st now incident_type priority description).id = st.next_id ∧
      (registered_incident st now incident_type priority description).status = "pending" ∧
      (registered_incident st now incident_type priority description).assigned_to = none) := by
  refine ⟨?_, ?_, ?_, ?_, ?_, ?_⟩
  · intro h
    have h1 : (py_strip incident_type == "") = true := by simpa using h
    unfold IncidentDispatcher.register_incident
    rw [if_pos h1]
    exact ⟨rfl, rfl⟩
  · intro hne hvne
    have h1 : (py_strip incident_type == "") = false := by
      cases hx : (py_strip incident_type == "")
      · rfl
      · exact absurd (by simpa using hx) hne
    have h2 : (IncidentValidator.validate_all_incident_data
        incident_type priority description).isEmpty = false := by
      cases hl : IncidentValidator.validate_all_incident_data incident_type priority description with
      | nil => exact absurd hl hvne
      | cons a l => rfl
    rw [register_incident_invalid st now incident_type priority description h1 h2]
    exact ⟨rfl, rfl⟩
  · intro hT
    have hT' : IncidentValidator.validate_type incident_type = false := by
      cases hx : IncidentValidator.validate_type incident_type
      · rfl
      · exact absurd hx hT
    simp [IncidentValidator.validate_all_incident_data, hT']
  · intro hP
    have hP' : IncidentValidator.validate_priority priority = false := by
      cases hx : IncidentValidator.validate_priority priority
      · rfl
      · exact absurd hx hP
    simp [IncidentValidator.validate_all_incident_data, hP']
  · intro hD
    have hD' : IncidentValidator.validate_description description = false := by
      cases hx : IncidentValidator.validate_description description
      · rfl
      · exact absurd hx hD
    simp [IncidentValidator.validate_all_incident_data, hD']
  · intro hvalid
    have ht : IncidentValidator.validate_type incident_type = true := by
      cases hx : IncidentValidator.validate_type incident_type
      · exfalso
        have hmem : IncidentValidator.TYPE_ERROR_MSG ∈
            IncidentValidator.validate_all_incident_data incident_type priority description := by
          simp [IncidentValidator.validate_all_incident_data, hx]
        rw [hvalid] at hmem
        cases hmem
      · rfl
    have h1 : (py_strip incident_type == "") = false := validate_type_strip_ne incident_type ht
    have h2 : (IncidentValidator.validate_all_incident_data
        incident_type priority description).isEmpty = true := by
      rw [hvalid]; rfl
    exact ⟨register_incident_ok st now incident_type priority description h1 h2,
      rfl, rfl, rfl⟩

/-- Witness for C3: the decorator path at `("", "bogus", "ab")` and the
success path at `("security", "high", "server breach one")` on a fresh
dispatcher. -/
theorem register_incident_spec_witness :
    (py_strip "" = "" ∧
      (IncidentDispatcher.register_incident initState 0 "" "bogus" "ab").1
          = .raised ["Tipo de incidente inválido"]) ∧
    (IncidentValidator.validate_all_incident_data "security" "high" "server breach one" = [] ∧
      (IncidentDispatcher.register_incident initState 0 "security" "high"
          "server breach one").1 = .ok 1) := by
  refine ⟨⟨by decide, ?_⟩, ⟨by decide, ?_⟩⟩
  · exact ((register_incident_spec initState 0 "" "bogus" "ab").1 (by decide)).1
  · have h := ((register_incident_spec initState 0 "security" "high"
      "server breach one").2.2.2.2.2 (by decide)).1
    rw [h]
    rfl


end IncidentSim
